import Mathlib

/-!
Verification development for the cidc-taskmanager worker code.

Each definition below is a shallow embedding of a function of the
repository (file and symbol named in its doc comment).  Python lines read
from a file are modelled as `List String`; a Python `dict` is modelled as
an association list written in assignment order, looked up with
last-write-wins semantics; exceptions are modelled with `Option`
(`none` = the exception escapes); machine timestamps are `Int` seconds.
-/

namespace CIDC

/-! ## Character-level string primitives

Python's string operations are modelled over `String.data` (the list of
characters) so that every definition reduces inside the kernel. -/

/-- Python `line[0] == chr(35)`: the line's first character is `#`
(the caller guards against the empty string). -/
def startsWithHash (s : String) : Bool :=
  match s.data with
  | c :: _ => c = '#'
  | [] => false

/-- Python `str.split(sep)` for a one-character separator, on character
lists: splitting never yields the empty list, and separators at the ends
produce empty segments, as in Python. -/
def splitChar (sep : Char) : List Char → List (List Char)
  | [] => [[]]
  | x :: xs =>
    match splitChar sep xs with
    | [] => [[]]
    | seg :: rest => if x = sep then [] :: seg :: rest else (x :: seg) :: rest

/-- The characters Python `str.strip()` removes: space, tab, newline,
carriage return, form feed and vertical tab. -/
def isPySpace (c : Char) : Bool :=
  c = ' ' || c = '\t' || c = '\n' || c = '\x0d' || c = '\x0c' || c = '\x0b'

/-- Python `str.strip()`: drop leading and trailing whitespace. -/
def stripStr (s : String) : String :=
  (((s.data.dropWhile isPySpace).reverse.dropWhile isPySpace).reverse).asString

/-- Python `str.replace(c, "")` for a one-character pattern: delete
every occurrence of the character. -/
def removeChar (c : Char) (s : String) : String :=
  (s.data.filter (fun x => x ≠ c)).asString

/-- Lexicographic-by-code-point strict comparison of character lists:
Python's `<` on strings. -/
def listLt : List Char → List Char → Bool
  | [], [] => false
  | [], _ :: _ => true
  | _ :: _, [] => false
  | a :: as, b :: bs =>
    if a < b then true else if b < a then false else listLt as bs

/-- Python `a < b` on strings. -/
def strLt (a b : String) : Bool := listLt a.data b.data

/-- Python `a <= b` on strings: `not (b < a)` for the total
lexicographic order. -/
def strLe (a b : String) : Bool := !(strLt b a)

/-- Is `pat` a prefix of `l`? -/
def isPrefixOfB : List Char → List Char → Bool
  | [], _ => true
  | _ :: _, [] => false
  | a :: as, b :: bs => a = b && isPrefixOfB as bs

/-- Does `pat` occur contiguously inside `s`?  This is Python
`re.search(pat, s)` for a pattern free of regex metacharacters. -/
def isInfixOfB : List Char → List Char → Bool
  | pat, [] => isPrefixOfB pat []
  | pat, c :: rest => isPrefixOfB pat (c :: rest) || isInfixOfB pat rest

/-! ## framework/tasks/processing_tasks.py : combine_mafs -/

/--
Embeds the comment-skipping loop of `combine_mafs`
(`processing_tasks.py` lines 147-150): `line = new_maf.readline()` then
`while line[0] == "#": line = new_maf.readline()`.  The file is the list
of its lines (each nonempty, as Python `readline` returns lines with
their trailing newline); `none` models the `IndexError` raised when
`line[0]` is evaluated after `readline` returns `""` at end of file.
Returns the first line not starting with `#` and the remaining lines.
-/
def skipHashLines : List String → Option (String × List String)
  | [] => none
  | l :: rest =>
    if l = ("") then none
    else if startsWithHash l then skipHashLines rest
    else some (l, rest)

/--
Embeds the copy loop of `combine_mafs` (`processing_tasks.py` lines
151-153): `while line: outfile.write(new_maf.readline());
line = new_maf.readline()`.  Input: the current value of `line` and the
lines not yet read; output: the successive strings passed to
`outfile.write` (a written `""` is Python's `readline` at end of file
and appends nothing to the file).
-/
def copyEveryOtherLine : String → List String → List String
  | line, rest =>
    if line = ("") then []
    else
      match rest with
      | [] => [("")]
      | [w] => [w]
      | w :: l2 :: rest2 => w :: copyEveryOtherLine l2 rest2

/--
Embeds `combine_mafs` (`processing_tasks.py` lines 136-153) as the list
of strings appended to the existing combined file, given the lines of
the new per-sample maf.  `none` models the `IndexError` on a file made
only of `#` lines.
-/
def combine_mafs (new_maf : List String) : Option (List String) :=
  match skipHashLines new_maf with
  | none => none
  | some (line, rest) => some (copyEveryOtherLine line rest)

/-! ## framework/tasks/AuthorizedTask.py : AuthorizedTask.token -/

/-- The token dictionary built by `get_token` (`AuthorizedTask.py` lines
27-31): access token, `expires_in`, and `time_fetched`. -/
structure AuthToken where
  access_token : String
  expires_in : Int
  time_fetched : Int
deriving DecidableEq, Repr

/--
Embeds the `token` property of `AuthorizedTask` (`AuthorizedTask.py`
lines 66-78).  `cached` is `self._token` (None on first use), `now` is
`time.time()` and `fresh` is the token `get_token()` would return if
called.  Returns the token the property yields together with `true`
exactly when `get_token` was invoked (a network fetch happened).
-/
def token_property (cached : Option AuthToken) (now : Int) (fresh : AuthToken) :
    AuthToken × Bool :=
  match cached with
  | none => (fresh, true)
  | some t =>
    if now - t.time_fetched > t.expires_in then (fresh, true) else (t, false)

/-! ## framework/tasks/processing_tasks.py : create_new_maf race check -/

/-- A completed `analysis` record as read by `create_new_maf`
(`processing_tasks.py` lines 170-188): its id, its `end_date`
(modelled as `Int` seconds) and the file names of its
`files_generated`. -/
structure AnalysisRunRec where
  run_id : String
  end_date : Int
  files_generated : List String
deriving DecidableEq, Repr

/-- Python `min` on two strings: the first argument when it compares
less-or-equal, else the second. -/
def minStr (a b : String) : String := if strLe a b then a else b

/--
Embeds the backoff condition of `create_new_maf`
(`processing_tasks.py` lines 195-199):
`my_end > end or my_end == end and min(my_run_id, run["_id"]) == my_run_id`
(Python parses this as `a or (b and c)`).
-/
def backoff_condition (my_end other_end : Int) (my_run_id other_run_id : String) :
    Bool :=
  decide (my_end > other_end) ||
    (decide (my_end = other_end) && (minStr my_run_id other_run_id == my_run_id))

/--
Embeds the scan of `create_new_maf` (`processing_tasks.py` lines
176-182) that finds this task's own completed run: folds over the
fetched runs, remembering the `end_date` and id of the last run whose
`files_generated` contains the new record's file name (initial state
`(0, none)` is Python's `my_end = 0`, `my_run_id = None`).
-/
def scan_my_run (file_name : String) (runs : List AnalysisRunRec) :
    Int × Option String :=
  runs.foldl
    (fun acc run =>
      if run.files_generated.contains file_name then (run.end_date, some run.run_id)
      else acc)
    (0, none)

/--
Embeds the race-check loop of `create_new_maf`
(`processing_tasks.py` lines 186-207): returns `true` exactly when some
fetched run other than this task's own run ended less than 30 seconds
before `isotime` and the backoff condition holds against it (the Python
loop then sleeps and re-runs `process_maf`).  When `scan_my_run` found
no own run (`none`), Python would raise comparing `0` with a datetime;
the theorems below only use states where the own run is present.
-/
def create_new_maf_backoff (file_name : String) (isotime : Int)
    (runs : List AnalysisRunRec) : Bool :=
  let m := scan_my_run file_name runs
  runs.any
    (fun run =>
      (some run.run_id != m.2) && decide (isotime - run.end_date < 30) &&
        backoff_condition m.1 run.end_date (m.2.getD ("")) run.run_id)

/-! ## framework/tasks/processing_tasks.py : process_table -/

/-- `framework/tasks/data_classes.py`: the `RecordContext` NamedTuple
(trial id, assay id, parent record id). -/
structure RecordContext where
  trial : String
  assay : String
  record : String
deriving DecidableEq, Repr

/-- Python `line.split(chr(9))`. -/
def splitTab (s : String) : List String :=
  (splitChar '\t' s.data).map List.asString

/-- `process_table` header cell cleanup (`processing_tasks.py` lines
80-83): `header.strip().replace(chr(34), "").replace(".", "")`. -/
def cleanHeaderCell (s : String) : String :=
  removeChar '.' (removeChar '\x22' (stripStr s))

/-- `process_table` value cell cleanup (`processing_tasks.py` line 96):
`values[i].strip().replace(chr(34), "")`. -/
def cleanValueCell (s : String) : String := removeChar '\x22' (stripStr s)

/--
Embeds the header-finding branch of `process_table`
(`processing_tasks.py` lines 77-83): lines starting with `#` before the
first other line are skipped; the first line with `line[0] != "#"` is
split on tabs into the (cleaned) column headers; every later line is a
value row.  `none`: the file has no non-`#` line, so `first_line` never
becomes true and `process_table` returns `[]`.
-/
def headerAndRows : List String → Option (List String × List String)
  | [] => none
  | l :: rest =>
    if startsWithHash l then headerAndRows rest
    else some ((splitTab l).map cleanHeaderCell, rest)

/-- One parsed row of `process_table` (`processing_tasks.py` lines
94-99) followed by `add_record_context` (lines 48-55): the
header-keyed cells and then the `trial`/`assay`/`record_id` updates,
as an assignment-ordered association list. -/
def mkTableEntry (headers : List String) (row : String) (context : RecordContext) :
    List (String × String) :=
  headers.zip ((splitTab row).map cleanValueCell) ++
    [(("trial"), context.trial), (("assay"), context.assay),
      (("record_id"), context.record)]

/--
Embeds the value-row loop of `process_table` (`processing_tasks.py`
lines 84-99): each row is split on tabs; a row whose value count
differs from the header count raises `IndexError` (modelled `none`),
otherwise the row becomes one entry.
-/
def processRows (headers : List String) (context : RecordContext) :
    List String → Option (List (List (String × String)))
  | [] => some []
  | row :: rest =>
    if headers.length = (splitTab row).length then
      match processRows headers context rest with
      | none => none
      | some es => some (mkTableEntry headers row context :: es)
    else none

/--
Embeds `process_table` (`processing_tasks.py` lines 58-102) on the list
of the file's lines: `none` models the raised `IndexError`, otherwise
the list of column-keyed records (with the record context added) is
returned, one per value row.
-/
def process_table (lines : List String) (context : RecordContext) :
    Option (List (List (String × String))) :=
  match headerAndRows lines with
  | none => some []
  | some (headers, rows) => processRows headers context rows

/-! ## framework/tasks/snakemake_tasks.py : find_valid_runs -/

/-- A data record inside an aggregation grouping as used by
`find_valid_runs` (`snakemake_tasks.py` line 137): only its `mapping`
tag is read. -/
structure SnakeRecord where
  mapping : String
deriving DecidableEq, Repr

/-- One grouping of the `/data` aggregation result
(`snakemake_tasks.py` lines 134-137): the assay id under `_id` and the
grouped records. -/
structure Grouping where
  assay : String
  records : List SnakeRecord
deriving DecidableEq, Repr

/-- An entry of the assay dictionary built by `check_for_runs`
(`snakemake_tasks.py` lines 103-110). -/
structure SnakeAssay where
  non_static_inputs : List String
  assay_name : String
  workflow_location : String
deriving DecidableEq, Repr

/-- Python `set(xs) == set(ys)` on lists of strings: each list is
contained in the other. -/
def sameSet (xs ys : List String) : Bool :=
  xs.all (fun x => ys.contains x) && ys.all (fun y => xs.contains y)

/--
Embeds `find_valid_runs` (`snakemake_tasks.py` lines 122-148).  The
assay dictionary is an association list keyed on assay id (its keys are
unique, being Mongo ids).  A grouping whose assay id is absent raises
`KeyError`, which the Python handler turns into `return None` for the
whole batch (modelled `none`); otherwise the groupings whose `mapping`
tag set equals the assay's `non_static_inputs` set are paired with
their assay, in order.
-/
def find_valid_runs (record_response : List Grouping)
    (assay_dict : List (String × SnakeAssay)) :
    Option (List (Grouping × SnakeAssay)) :=
  match record_response with
  | [] => some []
  | g :: rest =>
    match List.lookup g.assay assay_dict with
    | none => none
    | some a =>
      if sameSet (g.records.map SnakeRecord.mapping) a.non_static_inputs then
        (find_valid_runs rest assay_dict).map (fun l => (g, a) :: l)
      else find_valid_runs rest assay_dict

/-! ## framework/tasks/analysis_tasks.py : create_input_json -/

/-- One entry of `AssayDefinition.static_inputs`
(`analysis_tasks.py` lines 278-284). -/
structure StaticInput where
  key_name : String
  key_value : String
deriving DecidableEq, Repr

/-- A record of a sample grouping as read by `create_input_json`
(`analysis_tasks.py` lines 286-290): its `mapping` tag and `gs_uri`. -/
structure PipelineRecord where
  mapping : String
  gs_uri : String
deriving DecidableEq, Repr

/-- The sample grouping passed to `create_input_json`
(`analysis_tasks.py` lines 274 and 286): the sample id under `_id` and
the grouped records. -/
structure SampleAssay where
  sample_id : String
  records : List PipelineRecord
deriving DecidableEq, Repr

/--
Python `re.search(".prefix$", key)` (`analysis_tasks.py` line 281): the
unescaped `.` matches any character but a newline, so the key matches
exactly when it ends in some non-newline character followed by
`prefix`.
-/
def dotPrefixMatch (s : String) : Bool :=
  match s.data.reverse with
  | 'x' :: 'i' :: 'f' :: 'e' :: 'r' :: 'p' :: c :: _ => c ≠ '\n'
  | _ => false

/-- Python `re.search(run_prefix, mapping)` (`analysis_tasks.py` line
287) for a `run_prefix` free of regex metacharacters: the pattern
occurs somewhere inside the mapping. -/
def occursIn (pat s : String) : Bool := isInfixOfB pat.data s.data

/-- Python dict lookup of an assignment-ordered association list: the
last assignment of the key wins. -/
def dget (d : List (String × String)) (k : String) : Option String :=
  List.lookup k d.reverse

/-- `run_prefix` of `create_input_json` (`analysis_tasks.py` line 276):
the first static input's key name up to the first `.`
(`key_name.split(".")[0]`; the split of a string is never empty, so the
`[0]` is total). -/
def runPrefixOf (key_name : String) : String :=
  (((splitChar '.' key_name.data).headD []).asString)

/-- The key under which `create_input_json` stores a record's `gs_uri`
(`analysis_tasks.py` lines 286-290): the record's `mapping` when
`run_prefix` occurs inside it, else `run_prefix + "." + mapping`. -/
def mappingKey (runPref mapping : String) : String :=
  if !(occursIn runPref mapping) then runPref ++ (".") ++ mapping else mapping

/--
Embeds `create_input_json` (`analysis_tasks.py` lines 245-294) as the
input dictionary it builds, in assignment order.  `run_prefix` is the
first static input's key name up to the first `.`
(`assay["static_inputs"][0]["key_name"].split(".")[0]`, line 276);
`none` models the `IndexError` on an empty `static_inputs` list.  Each
static input whose key matches `.prefix$` is assigned the sample id,
the others their static value; then each record is assigned its
`gs_uri`, under its `mapping` when `run_prefix` occurs inside the
mapping and under `run_prefix ++ "." ++ mapping` otherwise.
-/
def create_input_json (sample_assay : SampleAssay)
    (static_inputs : List StaticInput) : Option (List (String × String)) :=
  match static_inputs with
  | [] => none
  | s0 :: _ =>
    let runPref := runPrefixOf s0.key_name
    let d1 := static_inputs.foldl
      (fun d entry =>
        if dotPrefixMatch entry.key_name then
          d ++ [(entry.key_name, sample_assay.sample_id)]
        else d ++ [(entry.key_name, entry.key_value)])
      []
    let d2 := sample_assay.records.foldl
      (fun d record => d ++ [(mappingKey runPref record.mapping, record.gs_uri)])
      d1
    some d2

/-! ## framework/tasks/processing_tasks.py : process_maf patch retry -/

/-- Outcome of one ETag-conditional PATCH of the combined artifact
(`processing_tasks.py` lines 296-319): success, a `RuntimeError`
carrying a 412 status, or any other `RuntimeError`. -/
inductive PatchOutcome
  | ok
  | conflict412
  | otherErr
deriving DecidableEq, Repr

/--
Embeds the patch/retry tail of `process_maf` against an existing
combined artifact (`processing_tasks.py` lines 294-319).  The
environment is the list of outcomes the API returns to the successive
PATCH attempts (each recursive `process_maf` call re-downloads,
re-merges and re-patches, so one environment entry is consumed per
merge pass; an exhausted list behaves like a success).  Returns
`(patch attempts made, value returned by the outermost call, whether
the terminal ERROR-CELERY-PATCH log was emitted)`.  On a 412 the code
sleeps 5 seconds, recursively re-runs `process_maf`, ignores its
result, and returns `True` (lines 308-312); on another error it logs
and returns `False` (lines 314-319).
-/
def process_maf_patch_loop : List PatchOutcome → Nat × Bool × Bool
  | [] => (1, true, false)
  | PatchOutcome.ok :: _ => (1, true, false)
  | PatchOutcome.otherErr :: _ => (1, false, true)
  | PatchOutcome.conflict412 :: rest =>
    let r := process_maf_patch_loop rest
    (r.1 + 1, true, r.2.2)

/-! ## framework/tasks/analysis_tasks.py : start_cromwell_flows and
     framework/tasks/snakemake_tasks.py : execute_workflow -/

/-- Observable side effects of the run launchers, in emission order. -/
inductive Act
  | checkProcessed (ids : List String)
  | warnUsed (trial : String)
  | errPatch (trial : String)
  | setProcessed (ids : List String) (b : Bool)
  | registerAnalysis (status : String)
  | launchCromwell (trial sample_id : String)
  | createInputs
  | runSnakemake
  | logError (category : String)
  | sendMail
  | updateAnalysis
deriving DecidableEq, Repr

/-- Environment seen by `start_cromwell_flows`: which trials include an
assay (`analysis_tasks.py` lines 367-375), the `processed` flag the
re-fetch of `check_processed` observes for each record id (lines
326-345), and whether the reserving PATCHes of `set_record_processed`
all succeed (lines 297-323). -/
structure CromwellEnv where
  trials_for : String → List String
  processed : String → Bool
  patch_ok : Bool

/-- A grouping of the aggregation result as read by
`start_cromwell_flows` (`analysis_tasks.py` lines 378-392): trial id,
optional sample id, and the ids of its records. -/
structure CromGroup where
  trial : String
  sample_id : Option String
  record_ids : List String
deriving DecidableEq, Repr

/-- An assay as read by `start_cromwell_flows`
(`analysis_tasks.py` lines 364-381). -/
structure CromAssay where
  assay_id : String
  non_static_inputs : List String
deriving DecidableEq, Repr

/-- `check_processed` (`analysis_tasks.py` lines 326-345) re-fetches
the records and reports whether all still have `processed == False`;
`processed` is the flag the data API returns for each record id. -/
def all_free (processed : String → Bool) (ids : List String) : Bool :=
  ids.all (fun r => !(processed r))

/--
Embeds the inner `for sample_assay in groups:` loop of
`start_cromwell_flows` for one assay (`analysis_tasks.py` lines
378-441).  Returns `(cromwell responses collected, side effects
emitted, whether a return-empty-list abort fired)`.  A group is
considered when its trial includes the assay and its record count
equals the assay's `non_static_inputs` count and it has a sample id.
If the re-fetch finds a processed record, the code logs a warning,
resets `processed = False` and `return []` aborts the whole function
(lines 395-403); if the reserving patch fails it logs, resets, and
also aborts (lines 406-414); otherwise the analysis entry is posted
and the cromwell run launched (lines 417-441).
-/
def cromwellGroupLoop (env : CromwellEnv) (assay : CromAssay)
    (trial_ids : List String) :
    List CromGroup → List (String × String) × List Act × Bool
  | [] => ([], [], false)
  | g :: rest =>
    if g.trial ∈ trial_ids ∧ g.record_ids.length = assay.non_static_inputs.length
    then
      match g.sample_id with
      | none => cromwellGroupLoop env assay trial_ids rest
      | some sid =>
        if !(all_free env.processed g.record_ids) then
          ([],
            [Act.checkProcessed g.record_ids, Act.warnUsed g.trial,
              Act.setProcessed g.record_ids false],
            true)
        else if !env.patch_ok then
          ([],
            [Act.checkProcessed g.record_ids, Act.setProcessed g.record_ids true,
              Act.errPatch g.trial, Act.setProcessed g.record_ids false],
            true)
        else
          let r := cromwellGroupLoop env assay trial_ids rest
          ((g.trial, sid) :: r.1,
            [Act.checkProcessed g.record_ids, Act.setProcessed g.record_ids true,
              Act.registerAnalysis ("In Progress"),
              Act.launchCromwell g.trial sid] ++ r.2.1,
            r.2.2)
    else cromwellGroupLoop env assay trial_ids rest

/--
Embeds the outer `for assay in assay_response:` loop of
`start_cromwell_flows` (`analysis_tasks.py` lines 348-443),
accumulating the responses and effects of each assay's pass; any abort
makes the whole function `return []`, discarding every response
collected so far (the already-emitted side effects of course remain).
-/
def cromwellAssayLoop (env : CromwellEnv) (groups : List CromGroup) :
    List CromAssay → List (String × String) → List Act →
    List (String × String) × List Act
  | [], acc, acts => (acc, acts)
  | a :: rest, acc, acts =>
    let r := cromwellGroupLoop env a (env.trials_for a.assay_id) groups
    if r.2.2 then ([], acts ++ r.2.1)
    else cromwellAssayLoop env groups rest (acc ++ r.1) (acts ++ r.2.1)

/-- Embeds `start_cromwell_flows` (`analysis_tasks.py` lines 348-443):
the returned response array together with the emitted side effects. -/
def start_cromwell_flows (env : CromwellEnv) (assay_response : List CromAssay)
    (groups : List CromGroup) : List (String × String) × List Act :=
  cromwellAssayLoop env groups assay_response [] []

/-- Environment seen by `execute_workflow`
(`snakemake_tasks.py` lines 598-669): the `processed` flag each record
id shows on re-fetch, and whether the snakemake run reports a
problem. -/
structure SnakeEnv where
  processed : String → Bool
  snakemake_ok : Bool

/--
Embeds `execute_workflow` (`snakemake_tasks.py` lines 598-669) at the
level of its control flow, for the group's record ids.  The task first
re-fetches the records (`check_processed`, line 608), then registers
the analysis run with `status = "In Progress"` (`register_analysis`,
lines 265-280, called at line 609) and only then examines `all_free`:
if some record was processed it logs an error and returns `False`
(lines 610-617) without patching any record; otherwise it reserves the
records, builds the inputs, and runs snakemake, resetting
`processed = False` and mailing on failure; `update_analysis` runs in
the `finally` block of the snakemake attempt.  Returns `(returned
bool, side effects in order)`.
-/
def execute_workflow (env : SnakeEnv) (record_ids : List String) :
    Bool × List Act :=
  if !(all_free env.processed record_ids) then
    (false,
      [Act.checkProcessed record_ids, Act.registerAnalysis ("In Progress"),
        Act.logError ("ERROR-CELERY-SNAKEMAKE")])
  else if !env.snakemake_ok then
    (false,
      [Act.checkProcessed record_ids, Act.registerAnalysis ("In Progress"),
        Act.setProcessed record_ids true, Act.createInputs, Act.runSnakemake,
        Act.checkProcessed record_ids, Act.setProcessed record_ids false,
        Act.sendMail, Act.updateAnalysis])
  else
    (true,
      [Act.checkProcessed record_ids, Act.registerAnalysis ("In Progress"),
        Act.setProcessed record_ids true, Act.createInputs, Act.runSnakemake,
        Act.updateAnalysis])

/-! ## Shared helper lemmas -/

/-- If some record id in the list shows `processed = true` on re-fetch,
`check_processed` reports the group as not all free. -/
theorem all_free_eq_false_of_processed (p : String → Bool) (ids : List String)
    (r : String) (hr : r ∈ ids) (hp : p r = true) : all_free p ids = false := by
  apply Bool.eq_false_iff.mpr
  intro hall
  have h := (List.all_eq_true).mp hall r hr
  rw [hp] at h
  simp at h

/-! ## Claim theorems -/

/--
Claim C1 (code_bug evidence): `combine_mafs`, applied to a new maf whose
lines are `#v`, `H`, `r1`, `r2`, `r3`, appends only `r1` and `r3` to the
combined file: it drops the first non-comment line and every second
line after it, so the non-comment row `r2` is not appended, contradicting
the claim that every non-comment row is appended in order.
-/
theorem combine_mafs_drops_rows_eval :
    combine_mafs [("#v\n"), ("H\n"), ("r1\n"), ("r2\n"), ("r3\n")]
        = some [("r1\n"), ("r3\n")]
      ∧ ("r2\n") ∉ [("r1\n"), ("r3\n")] := by
  constructor
  · rfl
  · decide

/--
Claim C9 (confirmed): the `token` property fetches a new credential
exactly when no token is cached or the elapsed time since the cached
token's `time_fetched` strictly exceeds its `expires_in`; in every other
state it returns the cached credential unchanged with no fetch.
-/
theorem token_property_spec (cached : Option AuthToken) (now : Int)
    (fresh : AuthToken) :
    ((token_property cached now fresh).2 = true ↔
        cached = none ∨
          ∃ t, cached = some t ∧ now - t.time_fetched > t.expires_in)
      ∧ ∀ t, cached = some t → now - t.time_fetched ≤ t.expires_in →
          token_property cached now fresh = (t, false) := by
  constructor
  · cases cached with
    | none => simp [token_property]
    | some t =>
      simp only [token_property]
      by_cases h : now - t.time_fetched > t.expires_in
      · simp [h]
      · simp only [if_neg h]
        simp only [gt_iff_lt] at h ⊢
        constructor
        · intro hfalse
          exact absurd hfalse (by simp)
        · rintro (hnone | ⟨t2, ht2, hgt⟩)
          · exact absurd hnone (by simp)
          · cases ht2
            exact absurd hgt h
  · intro t ht hle
    subst ht
    simp only [token_property, if_neg (not_lt.mpr hle)]

/-- Claim C9 witness: with a cached token fetched at time 0 that expires
in 100 seconds, accessing the property at time 5 returns the cached
token with no fetch. -/
theorem token_property_spec_witness :
    token_property (some ⟨("x"), 100, 0⟩) 5 ⟨("y"), 1, 2⟩
      = (⟨("x"), 100, 0⟩, false) :=
  (token_property_spec (some ⟨("x"), 100, 0⟩) 5 ⟨("y"), 1, 2⟩).2
    ⟨("x"), 100, 0⟩ rfl (by decide)

/--
Claim C3 counterexample: with the data API answering the combined
artifact patch with 412 twice and then succeeding, `process_maf` makes
three PATCH attempts in total, i.e. it retries twice after the first
412 — it does not retry exactly once.
-/
theorem process_maf_retries_twice_cex :
    process_maf_patch_loop
        [PatchOutcome.conflict412, PatchOutcome.conflict412, PatchOutcome.ok]
        = (3, true, false)
      ∧ (process_maf_patch_loop
          [PatchOutcome.conflict412, PatchOutcome.conflict412,
            PatchOutcome.ok]).1 - 1 ≠ 1 := by
  constructor
  · rfl
  · decide

/--
Claim C3 (amended): after `k` consecutive 412 conflicts followed by a
terminal outcome `o`, `process_maf` has made `k + 1` PATCH attempts
(one full merge per attempt, so no rows are silently dropped), and the
terminal ERROR-CELERY-PATCH log is emitted exactly when `o` is a
non-412 error; the outermost call returns `True` unless the very first
attempt failed with a non-412 error, because each 412 branch ignores
the recursive result and returns `True`.
-/
theorem process_maf_patch_loop_spec (k : Nat) (o : PatchOutcome)
    (rest : List PatchOutcome) (ho : o ≠ PatchOutcome.conflict412) :
    process_maf_patch_loop (List.replicate k PatchOutcome.conflict412 ++ o :: rest)
      = (k + 1, decide (k ≠ 0) || (o == PatchOutcome.ok),
          o == PatchOutcome.otherErr) := by
  induction k with
  | zero =>
    cases o with
    | ok => rfl
    | conflict412 => exact absurd rfl ho
    | otherErr => rfl
  | succ n ih =>
    have hcons : List.replicate (n + 1) PatchOutcome.conflict412 ++ o :: rest
        = PatchOutcome.conflict412 ::
            (List.replicate n PatchOutcome.conflict412 ++ o :: rest) := by
      simp [List.replicate_succ]
    rw [hcons]
    simp only [process_maf_patch_loop, ih]
    simp

/-- Claim C3 witness: two 412s then a success make three attempts, the
outer call returning `True` with no terminal error logged. -/
theorem process_maf_patch_loop_spec_witness :
    process_maf_patch_loop
        (List.replicate 2 PatchOutcome.conflict412 ++ PatchOutcome.ok :: [])
      = (3, true, false) := by
  have h := process_maf_patch_loop_spec 2 PatchOutcome.ok [] (by decide)
  simpa using h

/--
Claim C5 counterexample: two completed runs of the same trial/assay end
at the same timestamp 100 and are checked at time 110 (inside the
30-second window).  The run with the lexicographically smaller id `a`
backs off, and the run with the larger id `b` does not — the opposite
of the claimed tie-break.
-/
theorem create_new_maf_tie_smaller_id_cex :
    create_new_maf_backoff ("combined.maf") 110
        [⟨("a"), 100, [("combined.maf")]⟩, ⟨("b"), 100, []⟩] = true
      ∧ create_new_maf_backoff ("combined.maf") 110
        [⟨("b"), 100, [("combined.maf")]⟩, ⟨("a"), 100, []⟩] = false := by
  constructor
  · decide
  · decide

/-- `listLt` is irreflexive. -/
theorem listLt_irrefl (l : List Char) : listLt l l = false := by
  induction l with
  | nil => rfl
  | cons a as ih => simp [listLt, lt_irrefl, ih]

/-- `listLt` is asymmetric. -/
theorem listLt_asymm : ∀ (a b : List Char), listLt a b = true → listLt b a = false
  | [], [], h => by simp [listLt] at h
  | [], _ :: _, _ => rfl
  | _ :: _, [], h => by simp [listLt] at h
  | x :: as, y :: bs, h => by
    simp only [listLt] at h ⊢
    rcases lt_trichotomy x y with hxy | hxy | hxy
    · simp [hxy, not_lt_of_lt hxy]
    · subst hxy
      simp only [lt_irrefl, if_false] at h ⊢
      exact listLt_asymm as bs h
    · simp [hxy, not_lt_of_lt hxy] at h

/-- Two character lists neither of which compares below the other are
equal: `listLt` is a connected (total) strict order. -/
theorem listLt_conn : ∀ (a b : List Char),
    listLt a b = false → listLt b a = false → a = b
  | [], [], _, _ => rfl
  | [], _ :: _, h1, _ => by simp [listLt] at h1
  | _ :: _, [], _, h2 => by simp [listLt] at h2
  | x :: as, y :: bs, h1, h2 => by
    simp only [listLt] at h1 h2
    rcases lt_trichotomy x y with hxy | hxy | hxy
    · simp [hxy] at h1
    · subst hxy
      simp only [lt_irrefl, if_false] at h1 h2
      rw [listLt_conn as bs h1 h2]
    · simp [hxy] at h2

/-- Two strings neither of which compares below the other are equal. -/
theorem strLt_conn (a b : String) (h1 : strLt a b = false)
    (h2 : strLt b a = false) : a = b := by
  cases a; cases b
  exact congrArg String.mk (listLt_conn _ _ h1 h2)

/--
Claim C5 (amended): in `create_new_maf`'s race check over two completed
runs of the trial/assay — this task's own run `me` (the one whose
`files_generated` holds the new file) and another run that ended inside
the 30-second window — the task backs off (sleeps and re-runs
`process_maf`) if and only if its own run ended strictly later, or the
two end timestamps are equal and its own run id is the
lexicographically smaller one (the code's `min(my_run_id, run) ==
my_run_id` tie-break selects the smaller id, not the larger).
-/
theorem create_new_maf_backoff_pair_iff (fn : String) (iso : Int)
    (me other : AnalysisRunRec)
    (hme : me.files_generated.contains fn = true)
    (hother : other.files_generated.contains fn = false)
    (hne : me.run_id ≠ other.run_id)
    (hwin : iso - other.end_date < 30) :
    create_new_maf_backoff fn iso [me, other] = true ↔
      (other.end_date < me.end_date ∨
        (me.end_date = other.end_date ∧ strLt me.run_id other.run_id = true)) := by
  have hmem : fn ∈ me.files_generated := by simpa using hme
  have hnmem : fn ∉ other.files_generated := by simpa using hother
  have hscan : scan_my_run fn [me, other] = (me.end_date, some me.run_id) := by
    simp [scan_my_run, hmem, hnmem]
  simp only [create_new_maf_backoff, hscan, List.any_cons, List.any_nil,
    bne_self_eq_false, Bool.false_and, Bool.false_or, Bool.or_false,
    Option.getD_some]
  have hbne : (some other.run_id != some me.run_id) = true := by
    simp only [bne_iff_ne, ne_eq, Option.some.injEq]
    exact fun hcontra => hne hcontra.symm
  rw [hbne, decide_eq_true hwin]
  simp only [Bool.true_and, backoff_condition, Bool.or_eq_true, Bool.and_eq_true,
    decide_eq_true_eq, beq_iff_eq, gt_iff_lt]
  constructor
  · rintro (hlt | ⟨heq, hmin⟩)
    · exact Or.inl hlt
    · refine Or.inr ⟨heq.symm ▸ heq, ?_⟩
      by_cases hle : strLe me.run_id other.run_id = true
      · -- not-lt in the other direction plus inequality forces strict lt
        simp only [strLe, Bool.not_eq_true'] at hle
        cases hq : strLt me.run_id other.run_id
        · exact absurd (strLt_conn _ _ hq hle) hne
        · rfl
      · -- minStr picked the other id, contradicting hmin and hne
        unfold minStr at hmin
        rw [if_neg hle] at hmin
        exact absurd hmin.symm hne
  · rintro (hlt | ⟨heq, hlt⟩)
    · exact Or.inl hlt
    · refine Or.inr ⟨heq, ?_⟩
      unfold minStr
      have hle : strLe me.run_id other.run_id = true := by
        simp only [strLe, Bool.not_eq_true']
        exact listLt_asymm _ _ hlt
      rw [if_pos hle]

/-- Claim C5 witness: this task's run ended at 105, the other at 100,
checked at time 110: the later-ending run backs off. -/
theorem create_new_maf_backoff_pair_iff_witness :
    create_new_maf_backoff ("combined.maf") 110
      [⟨("b"), 105, [("combined.maf")]⟩, ⟨("a"), 100, []⟩] = true :=
  (create_new_maf_backoff_pair_iff ("combined.maf") 110
      ⟨("b"), 105, [("combined.maf")]⟩ ⟨("a"), 100, []⟩
      (by decide) (by decide) (by decide) (by decide)).mpr
    (Or.inl (by decide))

/-- A value row whose tab-split length differs from the header count
makes the row loop raise (`none`), wherever it sits in the file. -/
theorem processRows_none_of_mismatch (headers : List String)
    (context : RecordContext) :
    ∀ (rows : List String) (r : String), r ∈ rows →
      headers.length ≠ (splitTab r).length →
      processRows headers context rows = none := by
  intro rows
  induction rows with
  | nil => intro r hr; simp at hr
  | cons row rest ih =>
    intro r hr hne
    simp only [processRows]
    rcases List.mem_cons.mp hr with rfl | hrest
    · rw [if_neg hne]
    · by_cases hlen : headers.length = (splitTab row).length
      · rw [if_pos hlen, ih r hrest hne]
      · rw [if_neg hlen]

/-- When every value row's tab-split length equals the header count, the
row loop returns one entry per row. -/
theorem processRows_length (headers : List String) (context : RecordContext) :
    ∀ (rows : List String),
      (∀ r ∈ rows, headers.length = (splitTab r).length) →
      ∃ es, processRows headers context rows = some es ∧ es.length = rows.length := by
  intro rows
  induction rows with
  | nil => intro _; exact ⟨[], rfl, rfl⟩
  | cons row rest ih =>
    intro hall
    obtain ⟨es, hes, hlen⟩ := ih (fun r hr => hall r (List.mem_cons_of_mem _ hr))
    refine ⟨mkTableEntry headers row context :: es, ?_, by simp [hlen]⟩
    simp only [processRows, if_pos (hall row (List.mem_cons_self _ _)), hes]

/--
Claim C8 (confirmed): once `process_table` has located the header (the
first line not starting with `#`), it raises `IndexError` (modelled
`none`) whenever some later line splits into a number of tab-separated
fields different from the header's, and when every later line's field
count equals the header's it returns one column-keyed record per value
row.
-/
theorem process_table_spec (lines : List String) (context : RecordContext)
    (headers rows : List String)
    (h : headerAndRows lines = some (headers, rows)) :
    ((∃ r ∈ rows, headers.length ≠ (splitTab r).length) →
        process_table lines context = none)
      ∧ ((∀ r ∈ rows, headers.length = (splitTab r).length) →
          ∃ es, process_table lines context = some es ∧ es.length = rows.length) := by
  constructor
  · rintro ⟨r, hr, hne⟩
    simp only [process_table, h]
    exact processRows_none_of_mismatch headers context rows r hr hne
  · intro hall
    simp only [process_table, h]
    exact processRows_length headers context rows hall

/-- Claim C8 witness: a table with a 3-field header and a 2-field value
row raises; the same table with a 3-field value row parses into exactly
one record. -/
theorem process_table_spec_witness :
    process_table [("#c\n"), ("a\tb\tc\n"), ("1\t2\n")] ⟨("t"), ("a"), ("r")⟩
      = none :=
  (process_table_spec [("#c\n"), ("a\tb\tc\n"), ("1\t2\n")] ⟨("t"), ("a"), ("r")⟩
      [("a"), ("b"), ("c")] [("1\t2\n")] (by decide)).1
    ⟨("1\t2\n"), by decide, by decide⟩

/--
Claim C4 counterexample: two assays share the same `non_static_inputs`
set `{a}`; the grouping references assay id `1`.  Its mapping-tag set
equals assay `A2`'s `non_static_inputs` set, yet `find_valid_runs`
pairs the grouping only with its own assay `A1` — the pair `(G, A2)`
claimed by the iff is absent.
-/
theorem find_valid_runs_other_assay_cex :
    sameSet ((⟨("1"), [⟨("a")⟩]⟩ : Grouping).records.map SnakeRecord.mapping)
        ((⟨[("a")], ("A2"), ("w")⟩ : SnakeAssay).non_static_inputs) = true
      ∧ find_valid_runs [⟨("1"), [⟨("a")⟩]⟩]
          [(("1"), ⟨[("a")], ("A1"), ("w")⟩), (("2"), ⟨[("a")], ("A2"), ("w")⟩)]
          = some [(⟨("1"), [⟨("a")⟩]⟩, ⟨[("a")], ("A1"), ("w")⟩)]
      ∧ ((⟨("1"), [⟨("a")⟩]⟩, (⟨[("a")], ("A2"), ("w")⟩ : SnakeAssay)) ∉
          [((⟨("1"), [⟨("a")⟩]⟩ : Grouping), (⟨[("a")], ("A1"), ("w")⟩ : SnakeAssay))]) := by
  refine ⟨by decide, by decide, by decide⟩

/--
Claim C4 (amended): when `find_valid_runs` returns a batch (no grouping
hit a missing assay id), a pair `(G, A)` is in the output if and only
if `G` is one of the groupings, `A` is the assay dictionary's entry for
`G`'s own assay id, and the set of `G`'s mapping tags equals the set of
`A.non_static_inputs` — a grouping is never paired with any other
assay, even one with an identical required-input set.
-/
theorem find_valid_runs_mem_iff :
    ∀ (gs : List Grouping) (dict : List (String × SnakeAssay))
      (l : List (Grouping × SnakeAssay)) (g : Grouping) (a : SnakeAssay),
      find_valid_runs gs dict = some l →
      ((g, a) ∈ l ↔
        g ∈ gs ∧ List.lookup g.assay dict = some a ∧
          sameSet (g.records.map SnakeRecord.mapping) a.non_static_inputs = true) := by
  intro gs
  induction gs with
  | nil =>
    intro dict l g a h
    simp only [find_valid_runs, Option.some.injEq] at h
    subst h
    simp
  | cons g0 rest ih =>
    intro dict l g a h
    cases hlook : List.lookup g0.assay dict with
    | none =>
      simp only [find_valid_runs, hlook] at h
      exact Option.noConfusion h
    | some a0 =>
      simp only [find_valid_runs, hlook] at h
      by_cases hset :
          sameSet (g0.records.map SnakeRecord.mapping) a0.non_static_inputs = true
      · rw [if_pos hset] at h
        cases hrec : find_valid_runs rest dict with
        | none => rw [hrec] at h; exact absurd h (by simp)
        | some l0 =>
          rw [hrec] at h
          simp only [Option.map_some', Option.some.injEq] at h
          subst h
          constructor
          · intro hmem
            rcases List.mem_cons.mp hmem with heq | hmem0
            · obtain ⟨hg, ha⟩ := Prod.mk.injEq .. |>.mp heq
              subst hg; subst ha
              exact ⟨List.mem_cons_self _ _, hlook, hset⟩
            · obtain ⟨hmr, hla, hss⟩ := (ih dict l0 g a hrec).mp hmem0
              exact ⟨List.mem_cons_of_mem _ hmr, hla, hss⟩
          · rintro ⟨hgmem, hla, hss⟩
            rcases List.mem_cons.mp hgmem with rfl | hgrest
            · rw [hlook] at hla
              cases hla
              exact List.mem_cons_self _ _
            · exact List.mem_cons_of_mem _
                ((ih dict l0 g a hrec).mpr ⟨hgrest, hla, hss⟩)
      · rw [if_neg hset] at h
        rw [ih dict l g a h]
        constructor
        · rintro ⟨hgrest, hla, hss⟩
          exact ⟨List.mem_cons_of_mem _ hgrest, hla, hss⟩
        · rintro ⟨hgmem, hla, hss⟩
          rcases List.mem_cons.mp hgmem with rfl | hgrest
          · rw [hlook] at hla
            cases hla
            exact absurd hss hset
          · exact ⟨hgrest, hla, hss⟩

/-- Claim C4 witness: the matched grouping is paired with its own
assay's dictionary entry. -/
theorem find_valid_runs_mem_iff_witness :
    ((⟨("1"), [⟨("a")⟩]⟩ : Grouping), (⟨[("a")], ("A1"), ("w")⟩ : SnakeAssay)) ∈
      [((⟨("1"), [⟨("a")⟩]⟩ : Grouping), (⟨[("a")], ("A1"), ("w")⟩ : SnakeAssay))] :=
  (find_valid_runs_mem_iff [⟨("1"), [⟨("a")⟩]⟩]
      [(("1"), ⟨[("a")], ("A1"), ("w")⟩)]
      [(⟨("1"), [⟨("a")⟩]⟩, ⟨[("a")], ("A1"), ("w")⟩)]
      ⟨("1"), [⟨("a")⟩]⟩ ⟨[("a")], ("A1"), ("w")⟩ (by decide)).mpr
    ⟨by decide, by decide, by decide⟩

/--
Claim C6 (confirmed): if any grouping of the batch references an assay
id absent from the assay dictionary (the `KeyError` case),
`find_valid_runs` returns no runs at all (`None`), logging the
data-integrity error — the whole batch is aborted, including groupings
that matched before the error.
-/
theorem find_valid_runs_missing_assay_fail_closed :
    ∀ (gs : List Grouping) (dict : List (String × SnakeAssay)) (g : Grouping),
      g ∈ gs → List.lookup g.assay dict = none →
      find_valid_runs gs dict = none := by
  intro gs
  induction gs with
  | nil => intro dict g h; simp at h
  | cons g0 rest ih =>
    intro dict g hmem hnone
    rcases List.mem_cons.mp hmem with rfl | hrest
    · simp only [find_valid_runs, hnone]
    · cases hlook : List.lookup g0.assay dict with
      | none => simp only [find_valid_runs, hlook]
      | some a0 =>
        simp only [find_valid_runs, hlook]
        rw [ih dict g hrest hnone]
        simp

/-- Claim C6 witness: a batch whose first grouping matches its assay and
whose second grouping references the unknown assay id `9` yields no
runs at all. -/
theorem find_valid_runs_missing_assay_fail_closed_witness :
    find_valid_runs [⟨("1"), [⟨("a")⟩]⟩, ⟨("9"), []⟩]
        [(("1"), ⟨[("a")], ("A1"), ("w")⟩)]
      = none :=
  find_valid_runs_missing_assay_fail_closed [⟨("1"), [⟨("a")⟩]⟩, ⟨("9"), []⟩]
    [(("1"), ⟨[("a")], ("A1"), ("w")⟩)] ⟨("9"), []⟩ (by decide) (by decide)

/--
Claim C7 counterexample: with the single static input `("k", "v")` and
one record mapped `"m"` with uri `"gs://x"`, the manifest stores the
uri under the key `"k.m"` (run prefix plus dot plus mapping), not under
the record's mapping key `"m"`: looking up `"m"` finds nothing.
-/
theorem create_input_json_mapping_key_cex :
    create_input_json ⟨("s"), [⟨("m"), ("gs://x")⟩]⟩ [⟨("k"), ("v")⟩]
        = some [(("k"), ("v")), (("k.m"), ("gs://x"))]
      ∧ dget [(("k"), ("v")), (("k.m"), ("gs://x"))] ("m") = none := by
  refine ⟨by decide, by decide⟩

/--
Claim C7 (amended): for an assay with static inputs `(k, v)` (where `k`
does not match `.prefix$`) and `(kp, vp)` (where `kp` does), and a
sample group with sample id `s` and one record mapped `m` with uri `g`,
the manifest maps `k` to its static value `v`, maps the `.prefix$`-key
`kp` to the sample id `s` instead of its static value, and stores the
record's `gs_uri` under `mappingKey run_prefix m` — the mapping itself
when the run prefix (the first static key up to its first dot) occurs
inside it, and `run_prefix ++ "." ++ mapping` otherwise (the key
distinctness hypotheses rule out dictionary-overwrite collisions).
-/
theorem create_input_json_manifest_spec (k v kp vp s m g : String)
    (hk : dotPrefixMatch k = false) (hkp : dotPrefixMatch kp = true)
    (hkkp : k ≠ kp)
    (hkdk : k ≠ mappingKey (runPrefixOf k) m)
    (hkpdk : kp ≠ mappingKey (runPrefixOf k) m) :
    create_input_json ⟨s, [⟨m, g⟩]⟩ [⟨k, v⟩, ⟨kp, vp⟩]
        = some [(k, v), (kp, s), (mappingKey (runPrefixOf k) m, g)]
      ∧ dget [(k, v), (kp, s), (mappingKey (runPrefixOf k) m, g)] k = some v
      ∧ dget [(k, v), (kp, s), (mappingKey (runPrefixOf k) m, g)] kp = some s
      ∧ dget [(k, v), (kp, s), (mappingKey (runPrefixOf k) m, g)]
          (mappingKey (runPrefixOf k) m) = some g := by
  have hb1 : (k == mappingKey (runPrefixOf k) m) = false :=
    beq_false_of_ne hkdk
  have hb2 : (kp == mappingKey (runPrefixOf k) m) = false :=
    beq_false_of_ne hkpdk
  have hb3 : (k == kp) = false := beq_false_of_ne hkkp
  refine ⟨?_, ?_, ?_, ?_⟩
  · simp [create_input_json, hk, hkp]
  · simp [dget, List.lookup, hb1, hb3]
  · simp [dget, List.lookup, hb2]
  · simp [dget, List.lookup]

/-- Claim C7 witness: static inputs `("k", "v")` and
`("x.prefix", "w")` with sample id `SID` and one record `("m", "gs")`
produce the manifest `k -> v`, `x.prefix -> SID`, `k.m -> gs`. -/
theorem create_input_json_manifest_spec_witness :
    create_input_json ⟨("SID"), [⟨("m"), ("gs")⟩]⟩
        [⟨("k"), ("v")⟩, ⟨("x.prefix"), ("w")⟩]
      = some [(("k"), ("v")), (("x.prefix"), ("SID")), (("k.m"), ("gs"))] := by
  have h := (create_input_json_manifest_spec ("k") ("v") ("x.prefix") ("w")
      ("SID") ("m") ("gs") (by decide) (by decide) (by decide) (by decide)
      (by decide)).1
  rw [show mappingKey (runPrefixOf ("k")) ("m") = ("k.m") from by decide] at h
  exact h

/-- If some group of the list is eligible for the assay (trial matches,
record count matches, sample id present) but a record of it shows
`processed = true` on re-fetch, the group loop ends in the aborted
state. -/
theorem cromwellGroupLoop_aborts (env : CromwellEnv) (a : CromAssay)
    (tids : List String) :
    ∀ (groups : List CromGroup) (g : CromGroup) (sid : String),
      g ∈ groups → g.trial ∈ tids →
      g.record_ids.length = a.non_static_inputs.length →
      g.sample_id = some sid →
      all_free env.processed g.record_ids = false →
      (cromwellGroupLoop env a tids groups).2.2 = true := by
  intro groups
  induction groups with
  | nil => intro g sid h; simp at h
  | cons h0 rest ih =>
    intro g sid hmem htr hlen hsid hfree
    simp only [cromwellGroupLoop]
    by_cases helig : h0.trial ∈ tids ∧
        h0.record_ids.length = a.non_static_inputs.length
    · rw [if_pos helig]
      cases hs : h0.sample_id with
      | none =>
        rcases List.mem_cons.mp hmem with rfl | hrest
        · rw [hs] at hsid; exact Option.noConfusion hsid
        · exact ih g sid hrest htr hlen hsid hfree
      | some sid0 =>
        cases hf : all_free env.processed h0.record_ids with
        | false => simp [hf]
        | true =>
          rcases List.mem_cons.mp hmem with rfl | hrest
          · rw [hf] at hfree; exact Bool.noConfusion hfree
          · cases hp : env.patch_ok with
            | false => simp [hf, hp]
            | true =>
              have hrec := ih g sid hrest htr hlen hsid hfree
              simp [hf, hp, hrec]
    · rw [if_neg helig]
      rcases List.mem_cons.mp hmem with rfl | hrest
      · exact absurd ⟨htr, hlen⟩ helig
      · exact ih g sid hrest htr hlen hsid hfree

/-- Any abort inside any assay's pass makes the outer loop of
`start_cromwell_flows` return the empty response list, whatever was
already accumulated. -/
theorem cromwellAssayLoop_empty_of_abort (env : CromwellEnv)
    (groups : List CromGroup) :
    ∀ (assays : List CromAssay) (acc : List (String × String)) (acts : List Act)
      (a : CromAssay) (g : CromGroup) (sid : String),
      a ∈ assays → g ∈ groups →
      g.trial ∈ env.trials_for a.assay_id →
      g.record_ids.length = a.non_static_inputs.length →
      g.sample_id = some sid →
      all_free env.processed g.record_ids = false →
      (cromwellAssayLoop env groups assays acc acts).1 = [] := by
  intro assays
  induction assays with
  | nil => intro acc acts a g sid h; simp at h
  | cons a0 rest ih =>
    intro acc acts a g sid hamem hg htr hlen hsid hfree
    simp only [cromwellAssayLoop]
    rcases List.mem_cons.mp hamem with rfl | harest
    · have hab := cromwellGroupLoop_aborts env a (env.trials_for a.assay_id)
        groups g sid hg htr hlen hsid hfree
      simp [hab]
    · cases hflag : (cromwellGroupLoop env a0 (env.trials_for a0.assay_id)
          groups).2.2 with
      | true => simp [hflag]
      | false =>
        simp only [hflag, Bool.false_eq_true, if_false]
        exact ih _ _ a g sid harest hg htr hlen hsid hfree

/--
Claim C2 (amended): when the re-fetch of a matched, eligible group
finds a record with `processed == true`, `start_cromwell_flows` does
log a warning, reset `processed = false` on the group's records, and
launch no run for the group — but it aborts the ENTIRE batch rather
than that group only: the function returns an empty response list
(`return []`), so no other group of the batch is considered either.
First part: the whole-batch result is empty whenever any eligible group
is dirty.  Second part: when the dirty group is the first group, the
pass's exact effect trace is the re-fetch, the warning, and the reset —
with no analysis registration and no cromwell launch — ending aborted.
(Claim sources also name `execute_workflow`, whose per-group abort is
settled under C10.)
-/
theorem start_cromwell_flows_dedup_guard :
    (∀ (env : CromwellEnv) (assays : List CromAssay) (groups : List CromGroup)
        (a : CromAssay) (g : CromGroup) (sid : String),
        a ∈ assays → g ∈ groups →
        g.trial ∈ env.trials_for a.assay_id →
        g.record_ids.length = a.non_static_inputs.length →
        g.sample_id = some sid →
        all_free env.processed g.record_ids = false →
        (start_cromwell_flows env assays groups).1 = [])
      ∧ (∀ (env : CromwellEnv) (a : CromAssay) (tids : List String)
          (g : CromGroup) (rest : List CromGroup) (sid : String),
          g.trial ∈ tids →
          g.record_ids.length = a.non_static_inputs.length →
          g.sample_id = some sid →
          all_free env.processed g.record_ids = false →
          cromwellGroupLoop env a tids (g :: rest)
            = ([], [Act.checkProcessed g.record_ids, Act.warnUsed g.trial,
                Act.setProcessed g.record_ids false], true)) := by
  constructor
  · intro env assays groups a g sid hamem hg htr hlen hsid hfree
    exact cromwellAssayLoop_empty_of_abort env groups assays [] [] a g sid
      hamem hg htr hlen hsid hfree
  · intro env a tids g rest sid htr hlen hsid hfree
    simp only [cromwellGroupLoop, if_pos (And.intro htr hlen), hsid, hfree]
    simp

/-- Concrete environment for the dedup-guard scenarios: one trial `t`
carries the assay, record `r1` is already processed, every reserving
patch succeeds. -/
def cexCromEnv : CromwellEnv :=
  ⟨fun _ => [("t")], fun r => r == ("r1"), true⟩

/--
Claim C2 counterexample: a batch with one assay (requiring one input)
and two matched groups — `s1` holding the already-processed record `r1`
and `s2` holding the free record `r2`.  The code returns the empty
response list and never launches `s2`'s run, so the clean group of the
same batch is NOT still considered, contrary to the claim.
-/
theorem start_cromwell_flows_batch_abort_cex :
    start_cromwell_flows cexCromEnv [⟨("a1"), [("x")]⟩]
        [⟨("t"), some ("s1"), [("r1")]⟩, ⟨("t"), some ("s2"), [("r2")]⟩]
      = ([], [Act.checkProcessed [("r1")], Act.warnUsed ("t"),
          Act.setProcessed [("r1")] false])
      ∧ Act.launchCromwell ("t") ("s2") ∉
          [Act.checkProcessed [("r1")], Act.warnUsed ("t"),
            Act.setProcessed [("r1")] false] := by
  refine ⟨by decide, by decide⟩

/-- Claim C2 witness: in the concrete two-group batch the returned
response list is empty. -/
theorem start_cromwell_flows_dedup_guard_witness :
    (start_cromwell_flows cexCromEnv [⟨("a1"), [("x")]⟩]
        [⟨("t"), some ("s1"), [("r1")]⟩, ⟨("t"), some ("s2"), [("r2")]⟩]).1
      = [] :=
  start_cromwell_flows_dedup_guard.1 cexCromEnv [⟨("a1"), [("x")]⟩]
    [⟨("t"), some ("s1"), [("r1")]⟩, ⟨("t"), some ("s2"), [("r2")]⟩]
    ⟨("a1"), [("x")]⟩ ⟨("t"), some ("s1"), [("r1")]⟩ ("s1")
    (by decide) (by decide) (by decide) (by decide) rfl (by decide)

/--
Claim C10 (confirmed): `execute_workflow` posts the `In Progress`
analysis record before acting on the processed-flag verification: when
some record of the group is already `processed == true`, the task
returns `False` with an effect trace consisting of exactly the
re-fetch, the analysis registration, and the error log — the
`In Progress` analysis record has been created, yet no record was
reserved (no `processed` patch of either polarity appears).
-/
theorem execute_workflow_registers_before_guard (env : SnakeEnv)
    (record_ids : List String) (r : String) (hr : r ∈ record_ids)
    (hp : env.processed r = true) :
    execute_workflow env record_ids
        = (false, [Act.checkProcessed record_ids,
            Act.registerAnalysis ("In Progress"),
            Act.logError ("ERROR-CELERY-SNAKEMAKE")])
      ∧ Act.registerAnalysis ("In Progress") ∈ (execute_workflow env record_ids).2
      ∧ ∀ (b : Bool),
          Act.setProcessed record_ids b ∉ (execute_workflow env record_ids).2 := by
  have hfree := all_free_eq_false_of_processed env.processed record_ids r hr hp
  refine ⟨?_, ?_, ?_⟩
  · simp [execute_workflow, hfree]
  · simp [execute_workflow, hfree]
  · intro b
    simp [execute_workflow, hfree]

/-- Concrete environment for the `execute_workflow` guard: record `r1`
is already processed and snakemake would succeed. -/
def cexSnakeEnv : SnakeEnv := ⟨fun r => r == ("r1"), true⟩

/-- Claim C10 witness: with record `r1` already processed the task
returns `False` having registered the `In Progress` analysis run and
patched nothing. -/
theorem execute_workflow_registers_before_guard_witness :
    execute_workflow cexSnakeEnv [("r1")]
      = (false, [Act.checkProcessed [("r1")],
          Act.registerAnalysis ("In Progress"),
          Act.logError ("ERROR-CELERY-SNAKEMAKE")]) :=
  (execute_workflow_registers_before_guard cexSnakeEnv [("r1")] ("r1")
      (by decide) (by decide)).1

end CIDC
